import Mathlib

/-!
Verification of the vLLM XLM-RoBERTa model adapter
(`vllm/model_executor/models/xlm_roberta.py`).

The file gives a shallow embedding of the adapter's operations —
construction (`XLMRobertaModel_init`), weight loading (`load_weights`),
chunked forward inference (`forward`), attention-mask expansion
(`get_extended_attention_mask`), and the `sample` passthrough — and proves
the specified properties about them.

Modelling conventions:
* A torch tensor is a `shape`, a flat row-major `data` list of scalars and a
  `dtype` tag.  Scalar values are taken in an arbitrary commutative ring with
  decidable equality; theorems instantiate it at `ℤ` (every value occurring in
  the integer mask / additive-bias pipeline is an integer) and at `ℝ` (for the
  L2-normalisation property).
* Python exceptions are modelled with `Except`: a raised exception is an
  `Except.error` carrying the exception class and message.
* The externally owned sub-modules (HF embeddings, encoder stack, pooler) and
  the external torch scalar conversions are parameters of the embedding;
  theorems constrain them only by their documented shape contracts.
-/

namespace XLMR

/-- Torch dtype tags (only those that occur in the adapter's data flow). -/
inductive DType
  | bool
  | int32
  | int64
  | float16
  | float32
  deriving DecidableEq

/-- A torch tensor: shape, flat row-major data, dtype tag. -/
structure Tensor (α : Type) where
  shape : List Nat
  data : List α
  dtype : DType
  deriving DecidableEq

/-- Python exception classes raised (directly or by torch) in the adapter. -/
inductive TorchError
  | valueError (msg : String)
  | indexError (msg : String)
  | typeError (msg : String)
  | runtimeError (msg : String)
  | attributeError (msg : String)
  deriving DecidableEq

instance {ε σ : Type} [DecidableEq ε] [DecidableEq σ] : DecidableEq (Except ε σ) :=
  fun a b =>
    match a, b with
    | .ok x, .ok y =>
        if h : x = y then .isTrue (by rw [h]) else .isFalse (by intro hc; cases hc; exact h rfl)
    | .ok _, .error _ => .isFalse (by intro hc; cases hc)
    | .error _, .ok _ => .isFalse (by intro hc; cases hc)
    | .error x, .error y =>
        if h : x = y then .isTrue (by rw [h]) else .isFalse (by intro hc; cases hc; exact h rfl)

variable {α : Type} [CommRing α] [DecidableEq α]

/-- Torch `t.dim()` — the number of dimensions. -/
def Tensor.dim (t : Tensor α) : Nat := t.shape.length

/-- Python slicing `t[a:b, ...]` along the leading dimension (bounds clamped,
as in Python). -/
def Tensor.sliceRows (t : Tensor α) (a b : Nat) : Tensor α :=
  match t.shape with
  | [] => t
  | r :: rest =>
      let lo := min a r
      let hi := min b r
      let w := rest.prod
      { shape := (hi - lo) :: rest,
        data := (t.data.drop (lo * w)).take ((hi - lo) * w),
        dtype := t.dtype }

/-- Elementwise `t != c` (torch returns a `bool` tensor with entries 1 where
the element differs from `c` and 0 where it equals `c`). -/
def Tensor.ne_scalar (t : Tensor α) (c : α) : Tensor α :=
  { shape := t.shape,
    data := t.data.map (fun v => if v = c then 0 else 1),
    dtype := DType.bool }

/-- Conversion `.int()` on a bool tensor: dtype becomes int32; the 0/1 entries are
unchanged (value truncation only matters for non-integer data, and the
adapter only applies `.int()` to the bool result of `!= -1`). -/
def Tensor.toInt32 (t : Tensor α) : Tensor α :=
  { t with dtype := DType.int32 }

/-- The constructor `torch.zeros(shape, dtype)`. -/
def zerosTensor (shape : List Nat) (dtype : DType) : Tensor α :=
  { shape := shape, data := List.replicate shape.prod 0, dtype := dtype }

/-- The constructor `torch.ones(shape)` (default float32 dtype). -/
def onesTensor (shape : List Nat) : Tensor α :=
  { shape := shape, data := List.replicate shape.prod 1, dtype := DType.float32 }

/-- Split a flat list into consecutive chunks of length `d` (row-major rows
of the trailing dimension).  Fuel-based structural recursion. -/
def chunksOfAux (d : Nat) : Nat → List α → List (List α)
  | 0, _ => []
  | _, [] => []
  | fuel + 1, l => l.take d :: chunksOfAux d fuel (l.drop d)

/-- Split a flat list into consecutive chunks of length `d`. -/
def chunksOf (d : Nat) (l : List α) : List (List α) :=
  chunksOfAux d l.length l

/-- Round-to-nearest, ties to even, of the nonnegative rational `N / D`,
computed in `ℕ`. -/
def roundHalfEvenNat (N D : Nat) : Nat :=
  let q := N / D
  let r := N % D
  if 2 * r < D then q
  else if D < 2 * r then q + 1
  else if q % 2 = 0 then q else q + 1

/-- Floor of the base-2 logarithm, for `1 ≤ A`, clamped to at most 16 (values that large are
already beyond the float16 finite range). -/
def floorLog2 (A : Nat) : Nat :=
  ((List.range 17).filter (fun k => 2 ^ k ≤ A)).length - 1

/-- IEEE-754 binary16 round-to-nearest-even, restricted to integer inputs
(on which it is closed: the float16 ulp is a positive power of two wherever
`|x| > 2048`, and integers of magnitude at most 2048 are exactly
representable).  This is the scalar semantics of `.to(torch.float16)` on the
integer-valued tensors of the adapter's mask pipeline; magnitudes that
overflow the largest finite float16 value 65504 become ±65536, standing in
for ±infinity. -/
def float16RoundInt (x : ℤ) : ℤ :=
  let A := x.natAbs
  if A ≤ 2048 then x
  else
    let e := floorLog2 A
    let ulp := 2 ^ (e - 10)
    let m := roundHalfEvenNat A ulp
    let r := m * ulp
    let r2 : Nat := if 65504 < r then 65536 else r
    if x < 0 then -(r2 : ℤ) else (r2 : ℤ)

/-- Value of `torch.finfo(torch.float16).min`, the most negative representable
half-precision value. -/
def float16Min : ℤ := -65504

/-- Insert a broadcast dimension of size 1 after the leading dimension:
the shape effect of `t[:, None, ...]` (the flat data is unchanged). -/
def unsqueezeAfterHead (s : List Nat) : List Nat :=
  match s with
  | [] => []
  | b :: rest => b :: 1 :: rest

/-- Lines 183–185: cast the reshaped mask to float16 and turn it into an
additive bias, `(1.0 - mask) * torch.finfo(float16).min`, elementwise in
float16 arithmetic (`toF16` is the scalar float16 rounding). -/
def extendedBias (toF16 : α → α) (t : Tensor α) : Tensor α :=
  let casted : Tensor α :=
    { t with data := t.data.map toF16, dtype := DType.float16 }
  { casted with
    data := casted.data.map (fun v => toF16 (toF16 (1 - v) * (-65504))) }

/-- Lines 159–186, `XLMRobertaModel.get_extended_attention_mask`.
A rank-3 mask `(B, L, L)` becomes `mask[:, None, :, :]`; a rank-2 mask
`(B, L)` becomes `mask[:, None, None, :]`; any other rank raises
`ValueError`.  The reshaped mask is then cast to float16 (the `dtype`
parameter of the Python signature is unconditionally overwritten with
`torch.float16` on line 183) and converted to an additive bias.
`input_shape` is used only in the error message. -/
def get_extended_attention_mask (toF16 : α → α) (attention_mask : Tensor α)
    (input_shape : List Nat) : Except TorchError (Tensor α) :=
  if attention_mask.dim = 3 then
    Except.ok (extendedBias toF16
      { attention_mask with shape := unsqueezeAfterHead attention_mask.shape })
  else if attention_mask.dim = 2 then
    Except.ok (extendedBias toF16
      { attention_mask with
        shape := unsqueezeAfterHead (unsqueezeAfterHead attention_mask.shape) })
  else
    Except.error (TorchError.valueError
      "Wrong shape for input_ids or attention_mask")

/-- Python slicing `t[:, :m]` on the second dimension (bounds clamped).
Raises `IndexError` when the tensor has fewer than two dimensions. -/
def Tensor.sliceCols (t : Tensor α) (m : Nat) : Except TorchError (Tensor α) :=
  match t.shape with
  | a :: c :: rest =>
      let c2 := min m c
      let w := rest.prod
      Except.ok
        { shape := a :: c2 :: rest,
          data := ((chunksOf (c * w) t.data).map (List.take (c2 * w))).flatten,
          dtype := t.dtype }
  | _ => Except.error (TorchError.indexError ("too many indices for tensor"))

/-- Torch `t.expand(b, L)` on a rank-2 tensor: each dimension must already match or
have size 1 (which is broadcast by repetition); anything else raises. -/
def Tensor.expand2 (t : Tensor α) (b L : Nat) : Except TorchError (Tensor α) :=
  match t.shape with
  | [a, c] =>
      if (a = 1 ∨ a = b) ∧ (c = 1 ∨ c = L) then
        let rows := chunksOf c t.data
        let rows2 := rows.map (fun r => if c = L then r else List.replicate L (r.headD 0))
        let rows3 := if a = b then rows2 else List.replicate b (rows2.headD (List.replicate L 0))
        Except.ok { shape := [b, L], data := rows3.flatten, dtype := t.dtype }
      else
        Except.error (TorchError.runtimeError
          "The expanded size of the tensor must match the existing size")
  | _ => Except.error (TorchError.runtimeError
      "expand expects a 2-dimensional tensor here")

/-- Configuration fields of `XLMRobertaConfig` read by the adapter
(`use_return_dict` is the property derived from `return_dict`;
`name_or_path` identifies the checkpoint). -/
structure XLMRobertaConfig where
  output_attentions : Bool
  output_hidden_states : Bool
  use_return_dict : Bool
  is_decoder : Bool
  use_cache : Bool
  num_hidden_layers : Nat
  name_or_path : String

/-- The class `vllm.model_executor.layers.linear.LinearMethodBase`: either the
unquantized default or some quantized linear method. -/
inductive LinearMethodBase
  | unquantized
  | quantized (desc : String)
  deriving DecidableEq

/-- The check `isinstance(lm, UnquantizedLinearMethod)`. -/
def LinearMethodBase.isUnquantized : LinearMethodBase → Bool
  | .unquantized => true
  | .quantized _ => false

/-- Modelled from the spec: `vllm.config.LoRAConfig` is external to this
repository; the adapter never inspects its contents, so it is modelled as an
abstract record. -/
structure LoRAConfig where
  contents : Nat

/-- Modelled from the spec: `vllm.model_executor.input_metadata.InputMetadata`
is external to this repository; the adapter reads only its `slot_mapping`
field ("slot-mapping metadata indicating valid (non-padding) token
positions"). -/
structure InputMetadata (α : Type) where
  slot_mapping : Tensor α

/-- Modelled from the spec: `vllm.model_executor.sampling_metadata.SamplingMetadata`
is external to this repository; `sample` never inspects it. -/
structure SamplingMetadata where
  contents : Nat

/-- Line 22: `KVCache = Tuple[torch.Tensor, torch.Tensor]`. -/
def KVCache (α : Type) : Type := Tensor α × Tensor α

/-- The tuple/record returned by the external HF encoder stack.  Only
`last_hidden_state` (`encoder_outputs[0]`) is consumed numerically; the
remaining optional fields are forwarded unexamined into the output record. -/
structure EncoderOutputs (α : Type) where
  last_hidden_state : Tensor α
  past_key_values : Option Unit
  hidden_states : Option Unit
  attentions : Option Unit
  cross_attentions : Option Unit

/-- The external HF embeddings sub-module: its forward function
`(input_ids, token_type_ids, past_key_values_length) ↦ embedding_output`,
and its optional buffered `token_type_ids` tensor (the `hasattr` check on
line 107). -/
structure EmbeddingsModule (α : Type) where
  run : Tensor α → Tensor α → Nat → Tensor α
  token_type_ids : Option (Tensor α)

/-- The external HF encoder sub-module.  `run` takes, in order:
hidden_states, attention_mask, head_mask, encoder_hidden_states,
encoder_attention_mask, past_key_values, use_cache, output_attentions,
output_hidden_states, return_dict — exactly the keyword arguments of the
call on lines 126–137. -/
structure EncoderModule (α : Type) where
  run : Tensor α → Tensor α → List (Option (Tensor α)) → Option (Tensor α) →
    Option (Tensor α) → Option Unit → Bool → Bool → Bool → Bool → EncoderOutputs α

/-- What the external constructor `XLMRobertaModelHF(config)` returns, as far
as the adapter uses it: its `embeddings`, `encoder` and `pooler` attributes. -/
structure HFModelParts (α : Type) where
  embeddings : EmbeddingsModule α
  encoder : EncoderModule α
  pooler : Option (Tensor α → Tensor α)

/-- Both constructor failures are `NotImplementedError` (lines 41 and 46). -/
inductive InitError
  | notImplementedQuantization
  | notImplementedLora
  deriving DecidableEq

/-- The constructed adapter: the configuration, the linear method and the
three externally owned sub-module references (lines 51–59). -/
structure XLMRobertaModelState (α : Type) where
  config : XLMRobertaConfig
  linear_method : Option LinearMethodBase
  embeddings : EmbeddingsModule α
  encoder : EncoderModule α
  pooler : Option (Tensor α → Tensor α)

/-- Lines 33–59, `XLMRobertaModel.__init__`.  Quantized linear methods and
LoRA configurations raise `NotImplementedError` before the external
constructor `XLMRobertaModelHF` (passed here as `hfConstructor`) is ever
invoked; otherwise the sub-modules of the constructed HF model are stored. -/
def XLMRobertaModel_init (hfConstructor : XLMRobertaConfig → HFModelParts α)
    (config : XLMRobertaConfig) (linear_method : Option LinearMethodBase)
    (lora_config : Option LoRAConfig) :
    Except InitError (XLMRobertaModelState α) :=
  if linear_method.any (fun lm => ! lm.isUnquantized) then
    Except.error InitError.notImplementedQuantization
  else if lora_config.isSome then
    Except.error InitError.notImplementedLora
  else
    let hf_model := hfConstructor config
    Except.ok
      { config := config,
        linear_method := linear_method,
        embeddings := hf_model.embeddings,
        encoder := hf_model.encoder,
        pooler := hf_model.pooler }

/-- Errors raised during weight loading: `params_dict[name]` raises
`KeyError` for a missing name; the in-place loader's shape check is an
`AssertionError`. -/
inductive LoadError
  | keyError (name : String)
  | assertionError (msg : String)
  deriving DecidableEq

/-- Lookup `params_dict[name]` in the ordered dict of named parameters. -/
def lookupParam (params : List (String × Tensor α)) (name : String) :
    Option (Tensor α) :=
  (params.find? (fun p => p.1 = name)).map Prod.snd

/-- In-place update of a named parameter (the key set is unchanged). -/
def setParam (params : List (String × Tensor α)) (name : String) (v : Tensor α) :
    List (String × Tensor α) :=
  params.map (fun p => if p.1 = name then (p.1, v) else p)

/-- Modelled from the spec: `vllm.model_executor.weight_utils.default_weight_loader`
is external to this repository; per §4.2 it "copies the tensor data into the
destination using the default in-place loader (shape must match; a shape
mismatch fails the load)".  The copy keeps the destination's dtype. -/
def default_weight_loader (param loaded_weight : Tensor α) :
    Except LoadError (Tensor α) :=
  if param.shape = loaded_weight.shape then
    Except.ok { shape := param.shape, data := loaded_weight.data, dtype := param.dtype }
  else
    Except.error (LoadError.assertionError ("tensor shape mismatch"))

/-- Lines 62–72, the loop body of `XLMRobertaModel.load_weights`: for each
yielded `(name, tensor)` pair look the destination parameter up by name
(`KeyError` if absent) and copy the tensor into it.  The returned parameter
list is the state at the moment the loop stops — on failure nothing done so
far is rolled back. -/
def load_weights_from :
    List (String × Tensor α) → List (String × Tensor α) →
    List (String × Tensor α) × Option LoadError
  | params, [] => (params, none)
  | params, (name, loaded_weight) :: rest =>
      match lookupParam params name with
      | none => (params, some (LoadError.keyError name))
      | some param =>
          match default_weight_loader param loaded_weight with
          | Except.error e => (params, some e)
          | Except.ok p2 => load_weights_from (setParam params name p2) rest

/-- Lines 62–72, `XLMRobertaModel.load_weights`.  The external iterator
`hf_model_weights_iterator(model_name_or_path, cache_dir, load_format,
revision)` is not part of this repository; the sequence of `(name, tensor)`
pairs it yields is taken as the `weights` argument.  `params` is
`dict(self.named_parameters())`. -/
def load_weights (params weights : List (String × Tensor α)) :
    List (String × Tensor α) × Option LoadError :=
  load_weights_from params weights

/-- Lines 219–224, `XLMRobertaModel.sample`: returns the hidden states
unchanged. -/
def sample (hidden_states : Tensor α) (sampling_metadata : SamplingMetadata) :
    Tensor α :=
  hidden_states

/-- Lines 216–217, `XLMRobertaModel.dense_embedding`: `hidden_state[:, 0]`
(the `mask` argument is ignored).  Indexing position 0 of the second
dimension raises `IndexError` when that dimension is missing or empty. -/
def dense_embedding (hidden_state mask : Tensor α) : Except TorchError (Tensor α) :=
  match hidden_state.shape with
  | a :: c :: rest =>
      if c = 0 then
        Except.error (TorchError.indexError ("index 0 is out of bounds for dimension 1 with size 0"))
      else
        let w := rest.prod
        Except.ok
          { shape := a :: rest,
            data := ((chunksOf (c * w) hidden_state.data).map (List.take w)).flatten,
            dtype := hidden_state.dtype }
  | _ => Except.error (TorchError.indexError ("too many indices for tensor"))

/-- Lines 188–213, `XLMRobertaModel.get_head_mask`.  `forward` always calls
it with `head_mask = None`, yielding `[None] * num_hidden_layers`.  The
non-`None` branch would call `self._convert_head_mask_to_5d`, an attribute
this class (a direct `torch.nn.Module` subclass) does not define, hence an
`AttributeError`. -/
def get_head_mask (head_mask : Option (Tensor α)) (num_hidden_layers : Nat) :
    Except TorchError (List (Option (Tensor α))) :=
  match head_mask with
  | some _ => Except.error (TorchError.attributeError
      "XLMRobertaModel object has no attribute for converting a head mask to 5d")
  | none => Except.ok (List.replicate num_hidden_layers none)

/-- Lines 107–112: the per-chunk `token_type_ids`.  If the embeddings module
carries a buffered `token_type_ids`, slice it to the sequence length and
expand it over the batch; otherwise an all-zero `torch.long` tensor. -/
def token_type_ids_for (buffered : Option (Tensor α)) (batch_size seq_length : Nat) :
    Except TorchError (Tensor α) :=
  match buffered with
  | some buf => do
      let sliced ← buf.sliceCols seq_length
      sliced.expand2 batch_size seq_length
  | none => Except.ok (zerosTensor [batch_size, seq_length] DType.int64)

/-- Line 89: the per-chunk attention mask,
`(input_metadata.slot_mapping[start_index:start_index+batch_size, :] != -1).int()`.
It is wrapped in `Option` because line 104 tests `attention_mask is None`. -/
def chunk_attention_mask (slot_mapping : Tensor α) (start_index batch_size : Nat) :
    Option (Tensor α) :=
  some (((slot_mapping.sliceRows start_index (start_index + batch_size)).ne_scalar
    (-1)).toInt32)

/-- Lines 104–105: fall back to an all-ones `(batch_size, seq_length +
past_key_values_length)` mask when the attention mask is `None`. -/
def resolve_attention_mask (attention_mask : Option (Tensor α))
    (batch_size seq_len : Nat) : Tensor α :=
  match attention_mask with
  | none => onesTensor [batch_size, seq_len]
  | some m => m

/-- The record `transformers.modeling_outputs.BaseModelOutputWithPoolingAndCrossAttentions`
as constructed on lines 141–148. -/
structure BaseModelOutputWithPoolingAndCrossAttentions (α : Type) where
  last_hidden_state : Tensor α
  pooler_output : Option (Tensor α)
  past_key_values : Option Unit
  hidden_states : Option Unit
  attentions : Option Unit
  cross_attentions : Option Unit

/-- One element of `tensor_list`: the bge-m3 branch appends a tensor
(line 153), every other model name appends the whole
`BaseModelOutputWithPoolingAndCrossAttentions` object (line 155). -/
inductive ChunkOut (α : Type)
  | tensor (t : Tensor α)
  | modelOutput (o : BaseModelOutputWithPoolingAndCrossAttentions α)

/-- Concatenation along dim 0 of the tensors after the first: every element
must have the same trailing shape. -/
def catFrom (tail : List Nat) : List (Tensor α) → Except TorchError (Nat × List α)
  | [] => Except.ok (0, [])
  | t :: ts =>
      match t.shape with
      | [] => Except.error (TorchError.runtimeError
          "zero-dimensional tensor cannot be concatenated")
      | h :: tl =>
          if tl = tail then do
            let (m, d) ← catFrom tail ts
            Except.ok (h + m, t.data ++ d)
          else
            Except.error (TorchError.runtimeError
              "Sizes of tensors must match except in dimension 0")

/-- The element check of `torch.cat`: every element of `tensor_list` must be
a tensor; a `BaseModelOutputWithPoolingAndCrossAttentions` element raises
`TypeError`. -/
def extractTensors : List (ChunkOut α) → Except TorchError (List (Tensor α))
  | [] => Except.ok []
  | ChunkOut.tensor t :: rest => do
      let ts ← extractTensors rest
      Except.ok (t :: ts)
  | ChunkOut.modelOutput _ :: _ => Except.error (TorchError.typeError
      "expected Tensor as element in argument tensor_list")

/-- Concatenation along dim 0 of a non-empty list of tensors: the trailing
shape of the first element fixes the required trailing shape of all (and a
rank-0 first element is rejected by `catFrom` itself). -/
def catTensorList (ts : List (Tensor α)) : Except TorchError (Tensor α) :=
  match ts with
  | [] => Except.error (TorchError.runtimeError
      "torch.cat expected a non-empty list of Tensors")
  | t0 :: _ => do
      let (total, d) ← catFrom t0.shape.tail ts
      Except.ok { shape := total :: t0.shape.tail, data := d, dtype := t0.dtype }

/-- The call `torch.cat(tensor_list, dim=0)` (line 157).  It requires a non-empty list
whose elements are all tensors — a `BaseModelOutputWithPoolingAndCrossAttentions`
element (appended for every model name other than the bge-m3 variant) raises
`TypeError`. -/
def torchCat (outs : List (ChunkOut α)) : Except TorchError (Tensor α) :=
  match outs with
  | [] => Except.error (TorchError.runtimeError
      "torch.cat expected a non-empty list of Tensors")
  | _ :: _ => do
      let ts ← extractTensors outs
      catTensorList ts

/-- Python `range(start, stop, step)` for positive `step`. -/
def pyRange (start stop step : Nat) : List Nat :=
  List.range' start ((stop - start + step - 1) / step) step

/-- The number of chunks `forward` processes for leading dimension `n`
(chunk size 12, last chunk possibly smaller). -/
def numChunks (n : Nat) : Nat := (n + 11) / 12

/-- The number of rows of chunk `k` (rows `12k` up to `min (12k+12) n`). -/
def chunkRows (n k : Nat) : Nat := min (12 * k + 12) n - 12 * k

/-- Lines 88–155: the body of the loop in `XLMRobertaModel.forward` for the
chunk beginning at `start_index`, where `batch_size0` is the current value of
the Python variable `batch_size` (initially 12, reassigned on line 100 to the
previous chunk's row count — the returned `Nat`).  `toF16` is the scalar
float16 conversion used by the mask expansion and `norm2d` is the external
`torch.nn.functional.normalize(_, dim=-1)`. -/
def processChunk (self : XLMRobertaModelState α) (toF16 : α → α)
    (norm2d : Tensor α → Tensor α) (input_ids slot_mapping : Tensor α)
    (start_index batch_size0 : Nat) : Except TorchError (ChunkOut α × Nat) := do
  -- line 88: `ids = input_ids[start_index:start_index+batch_size, :]`
  if input_ids.dim < 2 then
    throw (TorchError.indexError ("too many indices for tensor"))
  let ids := input_ids.sliceRows start_index (start_index + batch_size0)
  -- line 89
  if slot_mapping.dim < 2 then
    throw (TorchError.indexError ("too many indices for tensor"))
  let attention_mask_opt : Option (Tensor α) :=
    chunk_attention_mask slot_mapping start_index batch_size0
  -- lines 90–92: flags are resolved from the static configuration only
  let output_attentions := self.config.output_attentions
  let output_hidden_states := self.config.output_hidden_states
  let return_dict := self.config.use_return_dict
  -- lines 94–97
  let use_cache := if self.config.is_decoder then self.config.use_cache else false
  -- lines 99–100: `batch_size, seq_length = input_shape` (raises for rank ≠ 2)
  match ids.shape with
  | [batch_size, seq_length] => do
      let input_shape := [batch_size, seq_length]
      -- line 102
      let past_key_values_length := 0
      -- lines 104–105
      let attention_mask := resolve_attention_mask attention_mask_opt batch_size
        (seq_length + past_key_values_length)
      -- lines 107–112
      let token_type_ids ← token_type_ids_for self.embeddings.token_type_ids
        batch_size seq_length
      -- line 114
      let extended_attention_mask ← get_extended_attention_mask toF16
        attention_mask input_shape
      -- line 115
      let encoder_extended_attention_mask : Option (Tensor α) := none
      -- line 116
      let head_mask ← get_head_mask (α := α) none self.config.num_hidden_layers
      -- lines 118–124
      let embedding_output := self.embeddings.run ids token_type_ids
        past_key_values_length
      -- lines 126–137
      let encoder_outputs := self.encoder.run embedding_output
        extended_attention_mask head_mask none encoder_extended_attention_mask
        none use_cache output_attentions output_hidden_states return_dict
      -- lines 138–139
      let sequence_output := encoder_outputs.last_hidden_state
      let pooled_output := self.pooler.map (fun p => p sequence_output)
      -- lines 141–148
      let output : BaseModelOutputWithPoolingAndCrossAttentions α :=
        { last_hidden_state := sequence_output,
          pooler_output := pooled_output,
          past_key_values := encoder_outputs.past_key_values,
          hidden_states := encoder_outputs.hidden_states,
          attentions := encoder_outputs.attentions,
          cross_attentions := encoder_outputs.cross_attentions }
      -- lines 150–155
      if self.config.name_or_path = "BAAI/bge-m3" then do
        let d ← dense_embedding output.last_hidden_state attention_mask
        Except.ok (ChunkOut.tensor (norm2d d), batch_size)
      else
        Except.ok (ChunkOut.modelOutput output, batch_size)
  | _ =>
      throw (TorchError.valueError ("not enough values to unpack"))

/-- The loop of lines 87–155 over the chunk start indices (the `range`
object is created once, with the initial step 12), threading the Python
variable `batch_size` reassigned on line 100 and accumulating
`tensor_list`. -/
def forwardLoop (self : XLMRobertaModelState α) (toF16 : α → α)
    (norm2d : Tensor α → Tensor α) (input_ids slot_mapping : Tensor α) :
    List Nat → Nat → Except TorchError (List (ChunkOut α))
  | [], _ => Except.ok []
  | s :: rest, bs => do
      let (out, b) ← processChunk self toF16 norm2d input_ids slot_mapping s bs
      let outs ← forwardLoop self toF16 norm2d input_ids slot_mapping rest b
      Except.ok (out :: outs)

/-- Lines 74–157, `XLMRobertaModel.forward`.  `positions` and `kv_caches`
are accepted but unused (interface uniformity); the tqdm progress indicator
is purely cosmetic and not modelled.  The batch is chunked with the
hard-coded `batch_size = 12`, each chunk is processed, and the accumulated
`tensor_list` is concatenated along dim 0. -/
def forward (self : XLMRobertaModelState α) (toF16 : α → α)
    (norm2d : Tensor α → Tensor α) (input_ids positions : Tensor α)
    (kv_caches : List (KVCache α)) (input_metadata : InputMetadata α) :
    Except TorchError (Tensor α) := do
  match input_ids.shape with
  | [] => throw (TorchError.indexError ("tuple index out of range"))
  | n :: _ => do
      let outs ← forwardLoop self toF16 norm2d input_ids
        input_metadata.slot_mapping (pyRange 0 n 12) 12
      torchCat outs

/-- Sum of the squared entries of a row. -/
def rowNormSq (v : List ℝ) : ℝ := (v.map (fun x => x ^ 2)).sum

/-- The L2 norm of a row. -/
noncomputable def rowNorm (v : List ℝ) : ℝ := Real.sqrt (rowNormSq v)

/-- L2-normalisation of one row. -/
noncomputable def normalizeRow (v : List ℝ) : List ℝ :=
  v.map (fun x => x / rowNorm v)

/-- Modelled from the spec: `torch.nn.functional.normalize(x, dim=-1)` is
external to this repository; per §4.3.i the output is "L2-normalized along
the feature dimension", i.e. every row of the last dimension is divided by
its L2 norm. -/
noncomputable def functional_normalize (t : Tensor ℝ) : Tensor ℝ :=
  { t with
    data := ((chunksOf (t.shape.getLastD 1) t.data).map normalizeRow).flatten }

/-- Shape contract of the external buffered `token_type_ids` tensor of the
HF embeddings module (when present, it is a rank-2 `(1, max_len)` registered
buffer that can be sliced to the sequence length and broadcast): either the
sequence fits, or the buffer has a broadcastable single column. -/
def BufferOk (buffered : Option (Tensor α)) (L : Nat) : Prop :=
  ∀ buf, buffered = some buf → ∃ P, buf.shape = [1, P] ∧ (L ≤ P ∨ P = 1)

/-- What the bge-m3 branch of the chunk loop produces for chunk `k`: the
tensor obtained by L2-normalising (`norm2d`) the first-token slice
(`dense_embedding`) of the last hidden state that the external encoder
returned for that chunk, of shape `(chunkRows n k, H)`. -/
def IsBgeChunkOut (self : XLMRobertaModelState α) (norm2d : Tensor α → Tensor α)
    (input_ids slot_mapping : Tensor α) (n L H k : Nat) (out : ChunkOut α) : Prop :=
  ∃ (token_type_ids extended_mask : Tensor α) (d : Tensor α),
    dense_embedding
      ((self.encoder.run
          (self.embeddings.run (input_ids.sliceRows (12 * k) (12 * k + 12))
            token_type_ids 0)
          extended_mask (List.replicate self.config.num_hidden_layers none)
          none none none
          (if self.config.is_decoder then self.config.use_cache else false)
          self.config.output_attentions self.config.output_hidden_states
          self.config.use_return_dict).last_hidden_state)
      (((slot_mapping.sliceRows (12 * k) (12 * k + 12)).ne_scalar (-1)).toInt32)
      = Except.ok d
    ∧ d.shape = [chunkRows n k, H]
    ∧ out = ChunkOut.tensor (norm2d d)

/-- Test embeddings module: hidden size 2, constant output, no buffered
token-type ids. -/
def testEmbeddings : EmbeddingsModule ℤ :=
  { run := fun ids _tti _pkv =>
      { shape := ids.shape ++ [2],
        data := List.replicate (ids.shape ++ [2]).prod 3,
        dtype := DType.float32 },
    token_type_ids := none }

/-- Test encoder module: returns its input hidden states unchanged. -/
def testEncoder : EncoderModule ℤ :=
  { run := fun x _m _hm _ehs _eam _pkv _uc _oa _oh _rd =>
      { last_hidden_state := x, past_key_values := none, hidden_states := none,
        attentions := none, cross_attentions := none } }

/-- Test configuration with a model name other than the bge-m3 variant. -/
def testConfigOther : XLMRobertaConfig :=
  { output_attentions := false, output_hidden_states := false,
    use_return_dict := true, is_decoder := false, use_cache := false,
    num_hidden_layers := 1, name_or_path := "xlm-roberta-base" }

/-- Test configuration with the bge-m3 model name. -/
def testConfigBge : XLMRobertaConfig :=
  { testConfigOther with name_or_path := "BAAI/bge-m3" }

/-- Test adapter state with a non-bge model name. -/
def testSelfOther : XLMRobertaModelState ℤ :=
  { config := testConfigOther, linear_method := none,
    embeddings := testEmbeddings, encoder := testEncoder, pooler := none }

/-- Test adapter state with the bge-m3 model name. -/
def testSelfBge : XLMRobertaModelState ℤ :=
  { config := testConfigBge, linear_method := none,
    embeddings := testEmbeddings, encoder := testEncoder, pooler := none }

/-- A rank-2 all-zero int64 tensor, used as test input ids / slot mapping. -/
def testInput (n L : Nat) : Tensor ℤ := zerosTensor [n, L] DType.int64

/-- Test embeddings module over `ℝ`: hidden size 2, constant output, no
buffered token-type ids. -/
def realEmbeddings : EmbeddingsModule ℝ :=
  { run := fun ids _tti _pkv =>
      { shape := ids.shape ++ [2],
        data := List.replicate (ids.shape ++ [2]).prod 3,
        dtype := DType.float32 },
    token_type_ids := none }

/-- Test encoder module over `ℝ`: returns its input hidden states. -/
def realEncoder : EncoderModule ℝ :=
  { run := fun x _m _hm _ehs _eam _pkv _uc _oa _oh _rd =>
      { last_hidden_state := x, past_key_values := none, hidden_states := none,
        attentions := none, cross_attentions := none } }

/-- Test adapter state over `ℝ` with the bge-m3 model name. -/
def realSelfBge : XLMRobertaModelState ℝ :=
  { config := testConfigBge, linear_method := none,
    embeddings := realEmbeddings, encoder := realEncoder, pooler := none }

/-- A rank-2 all-zero tensor over `ℝ`. -/
def realInput (n L : Nat) : Tensor ℝ := zerosTensor [n, L] DType.int64

/-! ## Supporting lemmas -/

theorem sliceRows_shape (t : Tensor α) (n L a b : Nat) (h : t.shape = [n, L]) :
    (t.sliceRows a b).shape = [min b n - min a n, L] := by
  simp [Tensor.sliceRows, h]

theorem float16RoundInt_zero : float16RoundInt 0 = 0 := by decide

theorem float16RoundInt_one : float16RoundInt 1 = 1 := by decide

theorem f16bias_at_zero :
    float16RoundInt (float16RoundInt (1 - float16RoundInt 0) * (-65504)) = -65504 := by
  decide

theorem f16bias_at_one :
    float16RoundInt (float16RoundInt (1 - float16RoundInt 1) * (-65504)) = 0 := by
  decide

theorem sliceRows_dim (t : Tensor α) (a b : Nat) :
    (t.sliceRows a b).dim = t.dim := by
  cases h : t.shape with
  | nil => simp [Tensor.sliceRows, Tensor.dim, h]
  | cons r rest => simp [Tensor.sliceRows, Tensor.dim, h]

theorem exceptBindOk {ε β γ : Type} (a : β) (f : β → Except ε γ) :
    (do let x ← (Except.ok a : Except ε β); f x) = f a := rfl

theorem get_extended_rank2_ok (toF16 : α → α) (m : Tensor α) (input_shape : List Nat)
    (h : m.dim = 2) :
    ∃ e, get_extended_attention_mask toF16 m input_shape = Except.ok e := by
  unfold get_extended_attention_mask
  rw [h]
  rw [if_neg (by decide), if_pos rfl]
  exact ⟨_, rfl⟩

theorem token_type_ids_ok (buffered : Option (Tensor α)) (b L : Nat) (hL : 1 ≤ L)
    (hbuf : BufferOk buffered L) :
    ∃ t, token_type_ids_for buffered b L = Except.ok t := by
  cases hb : buffered with
  | none => exact ⟨_, rfl⟩
  | some buf =>
      obtain ⟨P, hsh, hP⟩ := hbuf buf hb
      simp only [token_type_ids_for, Tensor.sliceCols, hsh]
      rw [exceptBindOk]
      simp only [Tensor.expand2]
      rw [if_pos]
      · exact ⟨_, rfl⟩
      · refine ⟨Or.inl trivial, ?_⟩
        omega

theorem dense_embedding_ok (hidden msk : Tensor α) (b L H : Nat)
    (hsh : hidden.shape = [b, L, H]) (hL : 1 ≤ L) :
    ∃ d, dense_embedding hidden msk = Except.ok d ∧ d.shape = [b, H] := by
  simp only [dense_embedding, hsh]
  rw [if_neg (by omega)]
  exact ⟨_, rfl, rfl⟩

theorem mask_dim (t : Tensor α) (a b : Nat) (c : α) :
    (((t.sliceRows a b).ne_scalar c).toInt32).dim = t.dim := by
  have := sliceRows_dim t a b
  simp only [Tensor.toInt32, Tensor.ne_scalar, Tensor.dim] at this ⊢
  exact this

theorem processChunk_bge (self : XLMRobertaModelState α) (toF16 : α → α)
    (norm2d : Tensor α → Tensor α) (input_ids slot_mapping : Tensor α)
    (n L H k : Nat)
    (hname : self.config.name_or_path = "BAAI/bge-m3")
    (hids : input_ids.shape = [n, L]) (hL : 1 ≤ L)
    (hslot : slot_mapping.dim = 2)
    (hbuf : BufferOk self.embeddings.token_type_ids L)
    (hEmb : ∀ ids tti pkv, (self.embeddings.run ids tti pkv).shape = ids.shape ++ [H])
    (hEnc : ∀ x m hm ehs eam pkv uc oa oh rd,
      (self.encoder.run x m hm ehs eam pkv uc oa oh rd).last_hidden_state.shape
        = x.shape)
    (hk : 12 * k ≤ n) :
    ∃ out, processChunk self toF16 norm2d input_ids slot_mapping (12 * k) 12 =
        Except.ok (out, chunkRows n k)
      ∧ IsBgeChunkOut self norm2d input_ids slot_mapping n L H k out := by
  have hdim2 : ¬ input_ids.dim < 2 := by simp [Tensor.dim, hids]
  have hsdim2 : ¬ slot_mapping.dim < 2 := by omega
  have hrows : min (12 * k + 12) n - min (12 * k) n = chunkRows n k := by
    simp only [chunkRows]; omega
  have hidsh : (input_ids.sliceRows (12 * k) (12 * k + 12)).shape
      = [chunkRows n k, L] := by
    rw [sliceRows_shape input_ids n L _ _ hids, hrows]
  obtain ⟨tt, htt⟩ := token_type_ids_ok self.embeddings.token_type_ids
    (chunkRows n k) L hL hbuf
  obtain ⟨em, hem⟩ := get_extended_rank2_ok toF16
    (((slot_mapping.sliceRows (12 * k) (12 * k + 12)).ne_scalar (-1)).toInt32)
    [chunkRows n k, L] (by rw [mask_dim]; exact hslot)
  simp only [processChunk, hidsh]
  rw [if_neg hdim2, if_neg hsdim2]
  simp only [chunk_attention_mask, resolve_attention_mask]
  rw [htt, exceptBindOk, hem, exceptBindOk]
  rw [show get_head_mask (α := α) none self.config.num_hidden_layers =
      Except.ok (List.replicate self.config.num_hidden_layers none) from rfl,
    exceptBindOk]
  rw [hname, if_pos rfl]
  have hhs : (self.encoder.run
      (self.embeddings.run (input_ids.sliceRows (12 * k) (12 * k + 12)) tt 0)
      em (List.replicate self.config.num_hidden_layers none) none none none
      (if self.config.is_decoder then self.config.use_cache else false)
      self.config.output_attentions self.config.output_hidden_states
      self.config.use_return_dict).last_hidden_state.shape
      = [chunkRows n k, L, H] := by
    rw [hEnc, hEmb, hidsh]
    rfl
  obtain ⟨d, hd, hdsh⟩ := dense_embedding_ok _
    (((slot_mapping.sliceRows (12 * k) (12 * k + 12)).ne_scalar (-1)).toInt32)
    (chunkRows n k) L H hhs hL
  rw [hd, exceptBindOk]
  exact ⟨ChunkOut.tensor (norm2d d), rfl, tt, em, d, hd, hdsh, rfl⟩

theorem forwardLoop_cons (self : XLMRobertaModelState α) (toF16 : α → α)
    (norm2d : Tensor α → Tensor α) (input_ids slot_mapping : Tensor α)
    (s : Nat) (rest : List Nat) (bs : Nat) (out : ChunkOut α) (b2 : Nat)
    (outs : List (ChunkOut α))
    (h1 : processChunk self toF16 norm2d input_ids slot_mapping s bs
      = Except.ok (out, b2))
    (h2 : forwardLoop self toF16 norm2d input_ids slot_mapping rest b2
      = Except.ok outs) :
    forwardLoop self toF16 norm2d input_ids slot_mapping (s :: rest) bs
      = Except.ok (out :: outs) := by
  simp only [forwardLoop]
  rw [h1, exceptBindOk]
  show (forwardLoop self toF16 norm2d input_ids slot_mapping rest b2).bind _
    = Except.ok (out :: outs)
  rw [h2]
  rfl

theorem forwardLoop_bge (self : XLMRobertaModelState α) (toF16 : α → α)
    (norm2d : Tensor α → Tensor α) (input_ids slot_mapping : Tensor α)
    (n L H : Nat)
    (hname : self.config.name_or_path = "BAAI/bge-m3")
    (hids : input_ids.shape = [n, L]) (hL : 1 ≤ L)
    (hslot : slot_mapping.dim = 2)
    (hbuf : BufferOk self.embeddings.token_type_ids L)
    (hEmb : ∀ ids tti pkv, (self.embeddings.run ids tti pkv).shape = ids.shape ++ [H])
    (hEnc : ∀ x m hm ehs eam pkv uc oa oh rd,
      (self.encoder.run x m hm ehs eam pkv uc oa oh rd).last_hidden_state.shape
        = x.shape) :
    ∀ (m k : Nat),
      (∀ j, j + 1 < m → 12 * (k + j) + 12 ≤ n) →
      (0 < m → 12 * (k + m - 1) ≤ n) →
      ∃ outs, forwardLoop self toF16 norm2d input_ids slot_mapping
          (List.range' (12 * k) m 12) 12 = Except.ok outs
        ∧ outs.length = m
        ∧ ∀ j (hj : j < outs.length),
            IsBgeChunkOut self norm2d input_ids slot_mapping n L H (k + j)
              (outs.get ⟨j, hj⟩) := by
  intro m
  induction m with
  | zero =>
      intro k _ _
      exact ⟨[], rfl, rfl, fun j hj => absurd hj (by simp)⟩
  | succ m2 ih =>
      intro k hcov hlast
      have hk : 12 * k ≤ n := by
        have := hlast (by omega)
        omega
      obtain ⟨out, hout, hIs⟩ := processChunk_bge self toF16 norm2d input_ids
        slot_mapping n L H k hname hids hL hslot hbuf hEmb hEnc hk
      rw [List.range'_succ]
      cases m2 with
      | zero =>
          refine ⟨[out], ?_, rfl, ?_⟩
          · exact forwardLoop_cons self toF16 norm2d input_ids slot_mapping
              (12 * k) (List.range' (12 * k + 12) 0 12) 12 out (chunkRows n k) []
              hout rfl
          · intro j hj
            have hj0 : j = 0 := by
              simp at hj
              exact hj
            subst hj0
            simpa using hIs
      | succ m3 =>
          have hcr : chunkRows n k = 12 := by
            have := hcov 0 (by omega)
            simp only [chunkRows]
            omega
          obtain ⟨outs, houts, hlen, hpt⟩ := ih (k + 1)
            (fun j hj => by have := hcov (j + 1) (by omega); omega)
            (fun hpos => by have := hlast (by omega); omega)
          have houts2 : forwardLoop self toF16 norm2d input_ids slot_mapping
              (List.range' (12 * k + 12) (m3 + 1) 12) (chunkRows n k)
              = Except.ok outs := by
            rw [hcr, show 12 * k + 12 = 12 * (k + 1) from by ring]
            exact houts
          refine ⟨out :: outs, ?_, by simp [hlen], ?_⟩
          · exact forwardLoop_cons self toF16 norm2d input_ids slot_mapping
              (12 * k) (List.range' (12 * k + 12) (m3 + 1) 12) 12 out
              (chunkRows n k) outs hout houts2
          · intro j hj
            cases j with
            | zero => simpa using hIs
            | succ j2 =>
                have hj2 : j2 < outs.length := by
                  simp at hj
                  omega
                have := hpt j2 hj2
                have harith : k + 1 + j2 = k + (j2 + 1) := by omega
                rw [harith] at this
                simpa using this

theorem chunkRows_telescope (n : Nat) :
    ∀ (m k : Nat),
      ((List.range m).map (fun j => chunkRows n (k + j))).sum
        = min (12 * (k + m)) n - min (12 * k) n := by
  intro m
  induction m with
  | zero => intro k; simp
  | succ m2 ih =>
      intro k
      rw [List.range_succ_eq_map]
      simp only [List.map_cons, List.map_map, List.sum_cons]
      have hmap : ((List.range m2).map ((fun j => chunkRows n (k + j)) ∘ Nat.succ)).sum
          = ((List.range m2).map (fun j => chunkRows n (k + 1 + j))).sum := by
        congr 1
        refine List.map_congr_left ?_
        intro a _
        simp only [Function.comp]
        have : k + Nat.succ a = k + 1 + a := by omega
        rw [this]
      rw [hmap, ih (k + 1)]
      simp only [chunkRows]
      omega

theorem extractTensors_ok (tail : List Nat) :
    ∀ (outs : List (ChunkOut α)) (b : Nat → Nat),
      (∀ j (hj : j < outs.length), ∃ t, outs.get ⟨j, hj⟩ = ChunkOut.tensor t
          ∧ t.shape = b j :: tail) →
      ∃ ts : List (Tensor α), extractTensors outs = Except.ok ts
        ∧ ts.length = outs.length
        ∧ ∀ j (hj : j < ts.length), (ts.get ⟨j, hj⟩).shape = b j :: tail := by
  intro outs
  induction outs with
  | nil => intro b _; exact ⟨[], rfl, rfl, fun j hj => absurd hj (by simp)⟩
  | cons o os ih =>
      intro b hpt
      obtain ⟨t0, ht0, hsh0⟩ := hpt 0 (by simp)
      have ho : o = ChunkOut.tensor t0 := by simpa using ht0
      subst ho
      obtain ⟨ts, hts, hlen, hptts⟩ := ih (fun j => b (j + 1))
        (fun j hj => by
          have := hpt (j + 1) (by simpa using Nat.succ_lt_succ hj)
          simpa using this)
      refine ⟨t0 :: ts, ?_, by simp [hlen], ?_⟩
      · simp only [extractTensors]
        rw [hts, exceptBindOk]
      · intro j hj
        cases j with
        | zero => simpa using hsh0
        | succ j2 =>
            have hj2 : j2 < ts.length := by
              simp at hj
              omega
            simpa using hptts j2 hj2

theorem catFrom_ok (tail : List Nat) :
    ∀ (ts : List (Tensor α)) (b : Nat → Nat),
      (∀ j (hj : j < ts.length), (ts.get ⟨j, hj⟩).shape = b j :: tail) →
      ∃ d, catFrom tail ts
        = Except.ok (((List.range ts.length).map b).sum, d) := by
  intro ts
  induction ts with
  | nil => intro b _; exact ⟨[], rfl⟩
  | cons t ts2 ih =>
      intro b hpt
      have hsh0 : t.shape = b 0 :: tail := by simpa using hpt 0 (by simp)
      obtain ⟨d, hd⟩ := ih (fun j => b (j + 1))
        (fun j hj => by
          have := hpt (j + 1) (by simpa using Nat.succ_lt_succ hj)
          simpa using this)
      refine ⟨t.data ++ d, ?_⟩
      have hsum : ((List.range (ts2.length + 1)).map b).sum
          = b 0 + ((List.range ts2.length).map (fun j => b (j + 1))).sum := by
        rw [List.range_succ_eq_map]
        simp only [List.map_cons, List.map_map, List.sum_cons]
        rfl
      simp only [catFrom, hsh0, eq_self_iff_true, if_true]
      rw [hd, exceptBindOk]
      simp only [List.length_cons, hsum]

theorem torchCat_ok (tail : List Nat) (outs : List (ChunkOut α)) (b : Nat → Nat)
    (hne : outs ≠ [])
    (hpt : ∀ j (hj : j < outs.length), ∃ t, outs.get ⟨j, hj⟩ = ChunkOut.tensor t
        ∧ t.shape = b j :: tail) :
    ∃ res, torchCat outs = Except.ok res
      ∧ res.shape = ((List.range outs.length).map b).sum :: tail := by
  obtain ⟨ts, hts, hlen, hptts⟩ := extractTensors_ok tail outs b hpt
  obtain ⟨d, hd⟩ := catFrom_ok tail ts b (fun j hj => hptts j hj)
  cases outs with
  | nil => exact absurd rfl hne
  | cons o os =>
      cases ts with
      | nil => simp at hlen
      | cons t0 ts2 =>
          have hsh0 : t0.shape = b 0 :: tail := by simpa using hptts 0 (by simp)
          refine ⟨⟨((List.range (t0 :: ts2).length).map b).sum :: tail, d, t0.dtype⟩,
            ?_, ?_⟩
          · simp only [torchCat]
            rw [hts, exceptBindOk]
            simp only [catTensorList, hsh0, List.tail_cons]
            rw [hd, exceptBindOk]
          · rw [hlen]

theorem range'_getLast_aux (step : Nat) :
    ∀ (m s : Nat), 0 < m →
      (List.range' s m step).getLast? = some (s + step * (m - 1)) := by
  intro m
  induction m with
  | zero => intro s h; omega
  | succ k ih =>
      intro s _
      rw [List.range'_succ]
      cases hk : k with
      | zero => simp
      | succ k2 =>
          have h2 := ih (s + step) (by omega)
          rw [hk] at h2
          rw [List.range'_succ] at h2 ⊢
          rw [List.getLast?_cons_cons, h2, Nat.succ_sub_one, Nat.succ_sub_one]
          congr 1
          ring

theorem load_weights_from_append (ys : List (String × Tensor α)) :
    ∀ (xs params p2 : List (String × Tensor α)),
      load_weights_from params xs = (p2, none) →
      load_weights_from params (xs ++ ys) = load_weights_from p2 ys := by
  intro xs
  induction xs with
  | nil =>
      intro params p2 h
      simp [load_weights_from] at h
      rw [h]
      rfl
  | cons x rest ih =>
      intro params p2 h
      obtain ⟨name, w⟩ := x
      cases hl : lookupParam params name with
      | none =>
          simp only [load_weights_from, hl] at h
          simp at h
      | some param =>
          cases hd : default_weight_loader param w with
          | error e =>
              simp only [load_weights_from, hl, hd] at h
              simp at h
          | ok p3 =>
              simp only [load_weights_from, hl, hd] at h
              simp only [List.cons_append, load_weights_from, hl, hd]
              exact ih _ _ h

theorem lookupParam_setParam (name m : String) (v : Tensor α) :
    ∀ params : List (String × Tensor α),
      (lookupParam (setParam params name v) m).isNone =
        (lookupParam params m).isNone := by
  intro params
  induction params with
  | nil => rfl
  | cons p rest ih =>
      simp only [setParam, lookupParam, List.map_cons, List.find?_cons] at ih ⊢
      have hkey : (if p.1 = name then (p.1, v) else p).1 = p.1 := by
        split <;> rfl
      rw [hkey]
      cases hc : (decide (p.1 = m)) with
      | true => simp
      | false =>
          simp only [hc]
          simpa [lookupParam, setParam] using ih

theorem load_weights_from_missing_stable :
    ∀ (xs params p2 : List (String × Tensor α)) (oe : Option LoadError),
      load_weights_from params xs = (p2, oe) →
      ∀ m, (lookupParam p2 m).isNone = (lookupParam params m).isNone := by
  intro xs
  induction xs with
  | nil =>
      intro params p2 oe h m
      simp [load_weights_from] at h
      rw [h.1]
  | cons x rest ih =>
      intro params p2 oe h m
      obtain ⟨name, w⟩ := x
      cases hl : lookupParam params name with
      | none =>
          simp only [load_weights_from, hl] at h
          cases h; rfl
      | some param =>
          cases hd : default_weight_loader param w with
          | error e =>
              simp only [load_weights_from, hl, hd] at h
              cases h; rfl
          | ok p3 =>
              simp only [load_weights_from, hl, hd] at h
              have := ih _ _ _ h m
              rw [this, lookupParam_setParam]

theorem rowNormSq_nonneg (v : List ℝ) : 0 ≤ rowNormSq v := by
  refine List.sum_nonneg ?_
  intro x hx
  simp only [List.mem_map] at hx
  obtain ⟨a, -, ha⟩ := hx
  rw [← ha]
  exact sq_nonneg a

theorem rowNormSq_pos (v : List ℝ) (h : ∃ x ∈ v, x ≠ 0) : 0 < rowNormSq v := by
  obtain ⟨x, hxv, hx⟩ := h
  have hmem : x ^ 2 ∈ v.map (fun y => y ^ 2) := List.mem_map_of_mem _ hxv
  have hle : x ^ 2 ≤ rowNormSq v :=
    List.single_le_sum (fun y hy => by
      simp only [List.mem_map] at hy
      obtain ⟨a, -, ha⟩ := hy
      rw [← ha]
      exact sq_nonneg a) _ hmem
  have hpos : 0 < x ^ 2 := by positivity
  linarith

theorem norm_normalizeRow (v : List ℝ) (h : ∃ x ∈ v, x ≠ 0) :
    rowNorm (normalizeRow v) = 1 := by
  have hs : 0 < rowNormSq v := rowNormSq_pos v h
  have hc2 : rowNorm v ^ 2 = rowNormSq v := Real.sq_sqrt hs.le
  have hsq : rowNormSq (normalizeRow v) = 1 := by
    unfold rowNormSq normalizeRow
    rw [List.map_map]
    have hmap : (v.map ((fun x => x ^ 2) ∘ fun x => x / rowNorm v))
        = v.map (fun x => x ^ 2 * (rowNorm v ^ 2)⁻¹) := by
      refine List.map_congr_left ?_
      intro a _
      simp only [Function.comp]
      rw [div_pow, div_eq_mul_inv]
    rw [hmap, List.sum_map_mul_right, hc2]
    have hfold : (v.map (fun x => x ^ 2)).sum = rowNormSq v := rfl
    rw [hfold]
    exact mul_inv_cancel₀ hs.ne'
  unfold rowNorm
  rw [hsq]
  exact Real.sqrt_one

/-! ## Claims -/

/-- C9.  For every hidden-state tensor and every sampling metadata value,
`sample` returns exactly the hidden-state tensor it was given, unchanged:
`sample` is the identity on its first argument. -/
theorem c9_sample_passthrough (hidden_states : Tensor ℤ) (m : SamplingMetadata) :
    sample hidden_states m = hidden_states := rfl

/-- C10.  In `forward`, the per-chunk attention mask is always the 0/1
integer tensor obtained by comparing the chunk's slot-mapping slice against
the sentinel −1: the optional mask is never `none`, so the fallback branch
of lines 104–105 (the all-ones mask) is unreachable, the resolved mask is
exactly the comparison tensor, its dtype is int32 and each entry is 0 or
1. -/
theorem c10_mask_never_none (slot_mapping : Tensor ℤ) (s bs b sl : Nat) :
    chunk_attention_mask slot_mapping s bs =
        some (((slot_mapping.sliceRows s (s + bs)).ne_scalar (-1)).toInt32)
      ∧ chunk_attention_mask slot_mapping s bs ≠ none
      ∧ resolve_attention_mask (chunk_attention_mask slot_mapping s bs) b sl =
          ((slot_mapping.sliceRows s (s + bs)).ne_scalar (-1)).toInt32
      ∧ (((slot_mapping.sliceRows s (s + bs)).ne_scalar (-1)).toInt32).dtype =
          DType.int32
      ∧ ∀ v ∈ (((slot_mapping.sliceRows s (s + bs)).ne_scalar (-1)).toInt32).data,
          v = 0 ∨ v = 1 := by
  refine ⟨rfl, by simp [chunk_attention_mask], rfl, rfl, ?_⟩
  intro v hv
  simp only [Tensor.toInt32, Tensor.ne_scalar, List.mem_map] at hv
  obtain ⟨a, -, ha⟩ := hv
  by_cases h : a = -1 <;> simp [h] at ha <;> [exact Or.inl ha.symm; exact Or.inr ha.symm]

/-- C6.  For every configuration requesting quantization (a linear-method
selector other than `None` and other than the unquantized default),
construction fails with `NotImplementedError` — and it does so before any
sub-module is built: the result does not depend on the external
`XLMRobertaModelHF` constructor at all. -/
theorem c6_quantization_rejected (hfC hfC2 : XLMRobertaConfig → HFModelParts ℤ)
    (config : XLMRobertaConfig) (desc : String) (lora_config : Option LoRAConfig) :
    XLMRobertaModel_init hfC config (some (LinearMethodBase.quantized desc)) lora_config
        = Except.error InitError.notImplementedQuantization
      ∧ XLMRobertaModel_init hfC config (some (LinearMethodBase.quantized desc)) lora_config
        = XLMRobertaModel_init hfC2 config (some (LinearMethodBase.quantized desc))
            lora_config :=
  ⟨rfl, rfl⟩

/-- C7.  For every non-`None` LoRA configuration passed to construction,
construction raises a configuration error (`NotImplementedError`), regardless
of the adapter configuration's contents (and regardless of the linear
method: when quantization is also requested, the quantization
`NotImplementedError` fires first). -/
theorem c7_lora_rejected (hfC : XLMRobertaConfig → HFModelParts ℤ)
    (config : XLMRobertaConfig) (linear_method : Option LinearMethodBase)
    (lora : LoRAConfig) :
    ∃ e : InitError,
      XLMRobertaModel_init hfC config linear_method (some lora) = Except.error e := by
  match linear_method with
  | none => exact ⟨InitError.notImplementedLora, rfl⟩
  | some LinearMethodBase.unquantized => exact ⟨InitError.notImplementedLora, rfl⟩
  | some (LinearMethodBase.quantized d) => exact ⟨InitError.notImplementedQuantization, rfl⟩

/-- C4.  For every attention-mask tensor whose rank is 1, or 4 or greater,
`get_extended_attention_mask` fails with a shape error (`ValueError`); it
never returns a value for such inputs. -/
theorem c4_mask_rank_error (toF16 : ℤ → ℤ) (mask : Tensor ℤ) (input_shape : List Nat)
    (h : mask.dim = 1 ∨ 4 ≤ mask.dim) :
    get_extended_attention_mask toF16 mask input_shape =
      Except.error (TorchError.valueError
        "Wrong shape for input_ids or attention_mask") := by
  have h3 : ¬ mask.dim = 3 := by omega
  have h2 : ¬ mask.dim = 2 := by omega
  simp [get_extended_attention_mask, h3, h2]

/-- C3.  For every attention-mask tensor of rank 2 with shape `(B, L)`,
`get_extended_attention_mask` returns a tensor of shape `(B, 1, 1, L)`; for
every mask of rank 3 with shape `(B, L, L)` it returns shape `(B, 1, L, L)`;
in both cases the result has half-precision dtype, with value 0 at attended
positions (mask entry 1) and the most negative representable half-precision
value (−65504) at masked positions (mask entry 0). -/
theorem c3_extended_mask (mask : Tensor ℤ) (input_shape : List Nat) (B L : Nat)
    (hshape : mask.shape = [B, L] ∨ mask.shape = [B, L, L])
    (hv : ∀ v ∈ mask.data, v = 0 ∨ v = 1) :
    ∃ ext, get_extended_attention_mask float16RoundInt mask input_shape = Except.ok ext
      ∧ ext.dtype = DType.float16
      ∧ ext.shape = (if mask.dim = 2 then [B, 1, 1, L] else [B, 1, L, L])
      ∧ ext.data = mask.data.map (fun v => if v = 1 then 0 else float16Min) := by
  have hdata : mask.data.map
      (fun v => float16RoundInt (float16RoundInt (1 - float16RoundInt v) * (-65504)))
      = mask.data.map (fun v => if v = 1 then 0 else float16Min) := by
    refine List.map_congr_left ?_
    intro a ha
    rcases hv a ha with h0 | h1
    · subst h0; rw [if_neg (by decide)]; exact f16bias_at_zero
    · subst h1; rw [if_pos rfl]; exact f16bias_at_one
  rcases hshape with h2 | h3
  · have hdim : mask.dim = 2 := by simp [Tensor.dim, h2]
    refine ⟨extendedBias float16RoundInt
      ⟨unsqueezeAfterHead (unsqueezeAfterHead mask.shape), mask.data, mask.dtype⟩,
      ?_, rfl, ?_, ?_⟩
    · simp [get_extended_attention_mask, hdim]
    · simp [extendedBias, hdim, h2, unsqueezeAfterHead]
    · simp only [extendedBias, List.map_map]
      exact hdata
  · have hdim : mask.dim = 3 := by simp [Tensor.dim, h3]
    refine ⟨extendedBias float16RoundInt
      ⟨unsqueezeAfterHead mask.shape, mask.data, mask.dtype⟩,
      ?_, rfl, ?_, ?_⟩
    · simp [get_extended_attention_mask, hdim]
    · simp [extendedBias, hdim, h3, unsqueezeAfterHead]
    · simp only [extendedBias, List.map_map]
      exact hdata

/-- Witness for C3 at the concrete rank-2 mask `[[1, 0]]`. -/
theorem c3_witness :
    ∃ ext, get_extended_attention_mask float16RoundInt
        (Tensor.mk [1, 2] ([1, 0] : List ℤ) DType.int32) [1, 2] = Except.ok ext
      ∧ ext.dtype = DType.float16
      ∧ ext.shape = (if (Tensor.mk [1, 2] ([1, 0] : List ℤ) DType.int32).dim = 2
          then [1, 1, 1, 2] else [1, 1, 2, 2])
      ∧ ext.data = ([1, 0] : List ℤ).map (fun v => if v = 1 then 0 else float16Min) :=
  c3_extended_mask (Tensor.mk [1, 2] ([1, 0] : List ℤ) DType.int32) [1, 2] 1 2
    (Or.inl rfl) (by decide)

/-- C5.  For every input batch to `forward` with leading dimension `n`, the
batch is partitioned sequentially into chunks of fixed size 12 (the loop
iterates over `range(0, n, 12)`, i.e. `pyRange 0 n 12`): the number of
processed chunks is `numChunks n`, which equals `n / 12` when `n` is a
multiple of 12; every chunk that is not the final one has exactly 12 rows;
and when `n` is not a multiple of 12 the final chunk has `n % 12` rows. -/
theorem c5_chunking (n L : Nat) (input_ids : Tensor ℤ)
    (hids : input_ids.shape = [n, L]) (hn : 1 ≤ n) :
    (pyRange 0 n 12).length = numChunks n
      ∧ (n % 12 = 0 → (pyRange 0 n 12).length = n / 12)
      ∧ (∀ s ∈ pyRange 0 n 12, s + 12 ≤ n →
          (input_ids.sliceRows s (s + 12)).shape = [12, L])
      ∧ (n % 12 ≠ 0 →
          (pyRange 0 n 12).getLast? = some (12 * (numChunks n - 1))
            ∧ (input_ids.sliceRows (12 * (numChunks n - 1))
                (12 * (numChunks n - 1) + 12)).shape = [n % 12, L]) := by
  refine ⟨?_, ?_, ?_, ?_⟩
  · simp [pyRange, numChunks, List.length_range']
  · intro h
    simp only [pyRange, List.length_range']
    omega
  · intro s hs hle
    rw [sliceRows_shape input_ids n L s (s + 12) hids]
    congr 1
    omega
  · intro h
    constructor
    · rw [pyRange, range'_getLast_aux 12 ((n - 0 + 12 - 1) / 12) 0 (by omega)]
      congr 1
      simp only [numChunks]
      omega
    · rw [sliceRows_shape input_ids n L _ _ hids]
      simp only [numChunks]
      congr 1
      omega

/-- Witness for C5 at `n = 15`, `L = 2` (two chunks, final chunk of 3 rows). -/
theorem c5_witness :
    ((pyRange 0 15 12).length = numChunks 15
      ∧ (15 % 12 = 0 → (pyRange 0 15 12).length = 15 / 12)
      ∧ (∀ s ∈ pyRange 0 15 12, s + 12 ≤ 15 →
          ((zerosTensor [15, 2] DType.int64 : Tensor ℤ).sliceRows s (s + 12)).shape
            = [12, 2])
      ∧ (15 % 12 ≠ 0 →
          (pyRange 0 15 12).getLast? = some (12 * (numChunks 15 - 1))
            ∧ (((zerosTensor [15, 2] DType.int64 : Tensor ℤ)).sliceRows
                (12 * (numChunks 15 - 1)) (12 * (numChunks 15 - 1) + 12)).shape
              = [15 % 12, 2])) :=
  c5_chunking 15 2 (zerosTensor [15, 2] DType.int64) rfl (by decide)

/-- C2.  For every weight source whose iterator yields some `(name, tensor)`
pair with `name` absent from the model's parameter mapping — the pairs
before it loading normally — `load_weights` fails with a lookup error
(`KeyError name`), and every parameter already copied from the pairs yielded
before the failing one keeps its copied value: the returned parameter state
is exactly the state `params2` reached after the successful prefix, with no
rollback. -/
theorem c2_load_weights_partial (params params2 pre post : List (String × Tensor ℤ))
    (badName : String) (w : Tensor ℤ)
    (hpre : load_weights params pre = (params2, none))
    (hmiss : lookupParam params badName = none) :
    load_weights params (pre ++ (badName, w) :: post) =
      (params2, some (LoadError.keyError badName)) := by
  unfold load_weights at hpre ⊢
  rw [load_weights_from_append _ pre params params2 hpre]
  have h2 : lookupParam params2 badName = none := by
    have := load_weights_from_missing_stable pre params params2 none hpre badName
    rw [hmiss] at this
    simp only [Option.isNone] at this
    cases hx : lookupParam params2 badName with
    | none => rfl
    | some v => rw [hx] at this; simp at this
  simp only [load_weights_from]
  rw [h2]

/-- Witness for C2: parameters `a, b`; the source successfully copies into
`a`, then yields the absent name `zzz`; the copied value of `a` is kept. -/
theorem c2_witness :
    load_weights
        [("a", Tensor.mk [2] ([0, 0] : List ℤ) DType.float32),
         ("b", Tensor.mk [1] ([0] : List ℤ) DType.float32)]
        ([("a", Tensor.mk [2] ([5, 6] : List ℤ) DType.float32)] ++
          ("zzz", Tensor.mk [1] ([7] : List ℤ) DType.float32) :: []) =
      ([("a", Tensor.mk [2] ([5, 6] : List ℤ) DType.float32),
        ("b", Tensor.mk [1] ([0] : List ℤ) DType.float32)],
        some (LoadError.keyError ("zzz"))) :=
  c2_load_weights_partial
    [("a", Tensor.mk [2] ([0, 0] : List ℤ) DType.float32),
     ("b", Tensor.mk [1] ([0] : List ℤ) DType.float32)]
    [("a", Tensor.mk [2] ([5, 6] : List ℤ) DType.float32),
     ("b", Tensor.mk [1] ([0] : List ℤ) DType.float32)]
    [("a", Tensor.mk [2] ([5, 6] : List ℤ) DType.float32)]
    [] "zzz" (Tensor.mk [1] ([7] : List ℤ) DType.float32)
    (by decide) (by decide)

/-- C1 counterexample.  The claim asserts that for any leading dimension
`n ≥ 1` and ANY model name, `forward` returns a concatenated tensor of
leading dimension `n`.  This is false for every model name other than
`"BAAI/bge-m3"`: the per-chunk loop then appends whole
`BaseModelOutputWithPoolingAndCrossAttentions` objects to `tensor_list`
(line 155), and `torch.cat` raises `TypeError` on a non-tensor element, so
`forward` never returns.  Concretely, with model name `"xlm-roberta-base"`
and a 1×1 batch, `forward` raises instead of returning a tensor. -/
theorem c1_counterexample :
    forward testSelfOther float16RoundInt (fun t => t) (testInput 1 1)
        (testInput 1 1) [] (InputMetadata.mk (testInput 1 1))
      = Except.error (TorchError.typeError
          "expected Tensor as element in argument tensor_list") := by
  decide

/-- C1 (amended).  For the model name `"BAAI/bge-m3"` — the only name for
which `forward` returns at all — and a rank-2 batch of shape `(n, L)` with
`n ≥ 1` and `L ≥ 1`, a rank-2 slot mapping, well-formed external sub-modules
(embeddings producing shape `ids.shape ++ [H]`, encoder preserving shape,
the buffered token-type ids broadcastable, the external normalisation
shape-preserving), the concatenated result returned by `forward` has leading
dimension exactly `n` (its shape is `(n, H)`), regardless of how the batch
was split into chunks of 12. -/
theorem c1_amended (self : XLMRobertaModelState ℤ) (toF16 : ℤ → ℤ)
    (norm2d : Tensor ℤ → Tensor ℤ) (input_ids positions : Tensor ℤ)
    (kv_caches : List (KVCache ℤ)) (input_metadata : InputMetadata ℤ)
    (n L H : Nat)
    (hname : self.config.name_or_path = "BAAI/bge-m3")
    (hids : input_ids.shape = [n, L]) (hn : 1 ≤ n) (hL : 1 ≤ L)
    (hslot : input_metadata.slot_mapping.dim = 2)
    (hbuf : BufferOk self.embeddings.token_type_ids L)
    (hEmb : ∀ ids tti pkv, (self.embeddings.run ids tti pkv).shape = ids.shape ++ [H])
    (hEnc : ∀ x m hm ehs eam pkv uc oa oh rd,
      (self.encoder.run x m hm ehs eam pkv uc oa oh rd).last_hidden_state.shape
        = x.shape)
    (hNorm : ∀ t, (norm2d t).shape = t.shape) :
    ∃ out, forward self toF16 norm2d input_ids positions kv_caches input_metadata
        = Except.ok out
      ∧ out.shape = [n, H] := by
  obtain ⟨outs, hloop, hlen, hpt⟩ := forwardLoop_bge self toF16 norm2d input_ids
    input_metadata.slot_mapping n L H hname hids hL hslot hbuf hEmb hEnc
    (numChunks n) 0
    (fun j hj => by simp only [numChunks] at hj; omega)
    (fun h => by simp only [numChunks] at h ⊢; omega)
  have hpy : pyRange 0 n 12 = List.range' (12 * 0) (numChunks n) 12 := by
    simp only [pyRange, numChunks]
    have h1 : n - 0 + 12 - 1 = n + 11 := by omega
    rw [h1]
  have hne : outs ≠ [] := by
    intro hnil
    rw [hnil] at hlen
    simp only [List.length_nil, numChunks] at hlen
    omega
  have hptcat : ∀ j (hj : j < outs.length), ∃ t,
      outs.get ⟨j, hj⟩ = ChunkOut.tensor t
        ∧ t.shape = (fun j => chunkRows n (0 + j)) j :: [H] := by
    intro j hj
    obtain ⟨tt, em, d, hd, hdsh, hout⟩ := hpt j hj
    exact ⟨norm2d d, hout, by rw [hNorm, hdsh]⟩
  obtain ⟨res, hcat, hsh⟩ := torchCat_ok [H] outs (fun j => chunkRows n (0 + j))
    hne hptcat
  have hsum : ((List.range outs.length).map (fun j => chunkRows n (0 + j))).sum
      = n := by
    rw [hlen, chunkRows_telescope n (numChunks n) 0]
    simp only [numChunks]
    omega
  refine ⟨res, ?_, ?_⟩
  · simp only [forward, hids]
    rw [hpy, hloop, exceptBindOk]
    exact hcat
  · rw [hsh, hsum]

/-- Witness for the amended C1 at a concrete 1×1 batch, identity test
modules with hidden size 2 and the identity in place of the external
normalisation. -/
theorem c1_amended_witness :
    ∃ out, forward testSelfBge float16RoundInt (fun t => t) (testInput 1 1)
        (testInput 1 1) [] (InputMetadata.mk (testInput 1 1))
        = Except.ok out
      ∧ out.shape = [1, 2] :=
  c1_amended testSelfBge float16RoundInt (fun t => t) (testInput 1 1)
    (testInput 1 1) [] (InputMetadata.mk (testInput 1 1)) 1 1 2
    rfl rfl (by decide) (by decide) rfl
    (fun buf h => absurd h (by simp [testSelfBge, testEmbeddings]))
    (fun ids tti pkv => rfl)
    (fun x m hm ehs eam pkv uc oa oh rd => rfl)
    (fun t => rfl)

/-- C8.  When the configuration's name equals `"BAAI/bge-m3"`, every
per-chunk output of `forward` (every element of `tensor_list`) is
`functional_normalize` applied to `dense_embedding` of the chunk's last
hidden state — the first-token hidden-state vectors, L2-normalized along the
feature axis (`IsBgeChunkOut`); `functional_normalize` acts row-wise by
`normalizeRow` on the feature axis, and for every non-zero row the
normalized row has L2 norm exactly 1. -/
theorem c8_bge_normalized (self : XLMRobertaModelState ℝ) (toF16 : ℝ → ℝ)
    (input_ids slot_mapping : Tensor ℝ) (n L H : Nat)
    (hname : self.config.name_or_path = "BAAI/bge-m3")
    (hids : input_ids.shape = [n, L]) (hn : 1 ≤ n) (hL : 1 ≤ L)
    (hslot : slot_mapping.dim = 2)
    (hbuf : BufferOk self.embeddings.token_type_ids L)
    (hEmb : ∀ ids tti pkv, (self.embeddings.run ids tti pkv).shape = ids.shape ++ [H])
    (hEnc : ∀ x m hm ehs eam pkv uc oa oh rd,
      (self.encoder.run x m hm ehs eam pkv uc oa oh rd).last_hidden_state.shape
        = x.shape) :
    ∃ outs, forwardLoop self toF16 functional_normalize input_ids slot_mapping
        (pyRange 0 n 12) 12 = Except.ok outs
      ∧ outs.length = numChunks n
      ∧ (∀ j (hj : j < outs.length),
          IsBgeChunkOut self functional_normalize input_ids slot_mapping n L H j
            (outs.get ⟨j, hj⟩))
      ∧ (∀ t : Tensor ℝ, (functional_normalize t).data
          = ((chunksOf (t.shape.getLastD 1) t.data).map normalizeRow).flatten)
      ∧ (∀ v : List ℝ, (∃ x ∈ v, x ≠ 0) → rowNorm (normalizeRow v) = 1) := by
  obtain ⟨outs, hloop, hlen, hpt⟩ := forwardLoop_bge self toF16
    functional_normalize input_ids slot_mapping n L H hname hids hL hslot hbuf
    hEmb hEnc (numChunks n) 0
    (fun j hj => by simp only [numChunks] at hj; omega)
    (fun h => by simp only [numChunks] at h ⊢; omega)
  have hpy : pyRange 0 n 12 = List.range' (12 * 0) (numChunks n) 12 := by
    simp only [pyRange, numChunks]
    have h1 : n - 0 + 12 - 1 = n + 11 := by omega
    rw [h1]
  refine ⟨outs, by rw [hpy]; exact hloop, hlen, ?_, fun t => rfl,
    norm_normalizeRow⟩
  intro j hj
  simpa using hpt j hj

/-- Witness for C8 at a concrete 1×1 batch over `ℝ` with the test modules
of hidden size 2. -/
theorem c8_witness :
    ∃ outs, forwardLoop realSelfBge (fun x => x) functional_normalize
        (realInput 1 1) (realInput 1 1) (pyRange 0 1 12) 12 = Except.ok outs
      ∧ outs.length = numChunks 1
      ∧ (∀ j (hj : j < outs.length),
          IsBgeChunkOut realSelfBge functional_normalize (realInput 1 1)
            (realInput 1 1) 1 1 2 j (outs.get ⟨j, hj⟩))
      ∧ (∀ t : Tensor ℝ, (functional_normalize t).data
          = ((chunksOf (t.shape.getLastD 1) t.data).map normalizeRow).flatten)
      ∧ (∀ v : List ℝ, (∃ x ∈ v, x ≠ 0) → rowNorm (normalizeRow v) = 1) :=
  c8_bge_normalized realSelfBge (fun x => x) (realInput 1 1) (realInput 1 1)
    1 1 2 rfl rfl (by decide) (by decide) rfl
    (fun buf h => absurd h (by simp [realSelfBge, realEmbeddings]))
    (fun ids tti pkv => rfl)
    (fun x m hm ehs eam pkv uc oa oh rd => rfl)

/-- Witness for C4 at a concrete rank-1 mask. -/
theorem c4_witness :
    get_extended_attention_mask (fun x => x) (Tensor.mk [3] ([1, 1, 0] : List ℤ) DType.int32) [3]
      = Except.error (TorchError.valueError
          "Wrong shape for input_ids or attention_mask") :=
  c4_mask_rank_error (fun x => x) (Tensor.mk [3] ([1, 1, 0] : List ℤ) DType.int32) [3]
    (Or.inl rfl)

end XLMR
